import Mathlib

/-!
Verification of `src/main.py` (guilhermeprokisch/llm-tui): a shallow
embedding in Lean 4 of the two functions of the script, `greet` and
`main`, together with a model of the parts of the Python runtime the
script relies on (`int()` parsing, decimal formatting of integers,
`input()`/`print()` interaction with standard input and output).
-/

namespace MainPy

/-! ## Model of Python `int()` on a string, and of decimal formatting.

`int(s)` strips surrounding whitespace, accepts an optional single `+`
or `-` sign, and then a nonempty run of base-10 digits in which single
underscores may occur between two digits (PEP 515).  Whitespace is
modelled as the ASCII whitespace characters recognised by
`Char.isWhitespace`. -/

/-- Numeric value of a digit character (`'0'` ↦ 0, …, `'9'` ↦ 9). -/
def digitVal (c : Char) : Nat := c.toNat - 48

/-- Value of a list of digit characters read in base 10, most
significant first. -/
def digitsToNat (cs : List Char) : Nat :=
  cs.foldl (fun a c => a * 10 + digitVal c) 0

/-- Consume the remainder of a digit run after at least one digit has
been read.  `afterUnd` records whether the previous character was an
underscore (an underscore must be followed by a digit and may not
follow another underscore); `acc` holds the digits seen so far,
reversed.  A single underscore is allowed between two digits; anything
else ends in failure, as in Python. -/
def digitRun : List Char → Bool → List Char → Option (List Char)
  | [], afterUnd, acc => if afterUnd then none else some acc.reverse
  | c :: rest, afterUnd, acc =>
    if c.isDigit then digitRun rest false (c :: acc)
    else if c = '_' ∧ afterUnd = false then digitRun rest true acc
    else none

/-- Parse a nonempty digit run (with optional internal underscores)
into its numeric value; the first character must be a digit. -/
def parseDigits (cs : List Char) : Option Nat :=
  match cs with
  | [] => none
  | c :: rest => if c.isDigit then (digitRun rest false [c]).map digitsToNat else none

/-- Sign handling of Python `int()` after whitespace stripping: one
optional `+` or `-`, then the digit run. -/
def pyIntCore (cs : List Char) : Option Int :=
  match cs with
  | [] => none
  | c :: rest =>
    if c = '+' then (parseDigits rest).map (fun n => (n : Int))
    else if c = '-' then (parseDigits rest).map (fun n => -(n : Int))
    else (parseDigits (c :: rest)).map (fun n => (n : Int))

/-- Strip leading and trailing whitespace from a character list. -/
def stripChars (cs : List Char) : List Char :=
  ((cs.dropWhile Char.isWhitespace).reverse.dropWhile Char.isWhitespace).reverse

/-- Model of Python `int(s)` for a base-10 string: `some n` when the
call succeeds with value `n`, `none` when it raises `ValueError`
(the spec's `ParseError`). -/
def pyInt (s : String) : Option Int := pyIntCore (stripChars s.data)

/-- Decimal digits of `n`, least significant first; structural
recursion on a fuel argument (the fuel is always sufficient when it is
at least `n`, since `n / 10 < n` for `n ≥ 10`). -/
def natDecRevFuel : Nat → Nat → List Char
  | 0, n => [Char.ofNat (48 + n)]
  | fuel + 1, n =>
    if n < 10 then [Char.ofNat (48 + n)]
    else Char.ofNat (48 + n % 10) :: natDecRevFuel fuel (n / 10)

/-- Decimal digits of `n`, most significant first (no leading zeros,
`"0"` for zero). -/
def natDec (n : Nat) : List Char := (natDecRevFuel n n).reverse

/-- Model of Python's decimal formatting of an `int` (as used by the
f-string `f"The square of {number} is {result}"`): canonical base-10
form, a leading `-` for negative values, no `+`, no leading zeros. -/
def intToDecimal : Int → String
  | .ofNat m => ⟨natDec m⟩
  | .negSucc m => ⟨'-' :: natDec (m + 1)⟩

/-! ## The program itself. -/

/-- `greet` of `src/main.py`: the f-string
`f"Hello, {name}! Welcome to the improved code."`. -/
def greet (name : String) : String :=
  "Hello, " ++ name ++ "! Welcome to the improved code."

/-- One chunk written to standard output: a prompt passed to `input()`
(written without a trailing newline) or a line printed by `print`
(written with a trailing newline). -/
inductive Chunk
  | prompt (s : String)
  | line (s : String)
deriving DecidableEq, Repr

/-- The two ways a run of the script can terminate abnormally:
`input()` hitting end of input (`EOFError`, the spec's
`InputExhausted`) and `int()` failing (`ValueError`, the spec's
`ParseError`). -/
inductive RunError
  | inputExhausted
  | parseError
deriving DecidableEq, Repr

/-- Observable outcome of one run: everything written to standard
output, in order, and the error the run terminated with, if any. -/
structure RunResult where
  stdout : List Chunk
  error : Option RunError
deriving DecidableEq, Repr

/-- The newline-terminated lines printed by `print`, in order,
ignoring the prompts. -/
def printedLines (r : RunResult) : List String :=
  r.stdout.filterMap (fun c => match c with | .line s => some s | .prompt _ => none)

/-- The text a chunk contributes to standard output: `print` appends a
newline, a prompt is written verbatim. -/
def chunkText : Chunk → String
  | .prompt s => s
  | .line s => s ++ "\n"

/-- The full text written to standard output during a run. -/
def stdoutText (r : RunResult) : String :=
  r.stdout.foldl (fun acc c => acc ++ chunkText c) ""

/-- Prompt of the first `input()` call (line 17 of `src/main.py`). -/
def namePrompt : String := "Please enter your name: "

/-- Prompt of the second `input()` call (line 22 of `src/main.py`). -/
def numberPrompt : String := "Enter a number to square: "

/-- `result = number ** 2` (line 23 of `src/main.py`); Python integers
are arbitrary precision, embedded as `Int`. -/
def square (number : Int) : Int := number ^ 2

/-- The second printed line, `f"The square of {number} is {result}"`
(line 24 of `src/main.py`). -/
def squareLine (number : Int) : String :=
  "The square of " ++ intToDecimal number ++ " is " ++ intToDecimal (square number)

/-- `main` of `src/main.py`, as a function from the lines available on
standard input (in order, newline already removed by `input()`) to the
observable outcome.  Each `input(prompt)` writes its prompt to
standard output before reading and raises `EOFError` when no line is
left; `int()` failure on the second line raises `ValueError` before
anything further is printed. -/
def main (stdin : List String) : RunResult :=
  match stdin with
  | [] => ⟨[.prompt namePrompt], some .inputExhausted⟩
  | user_name :: rest =>
    match rest with
    | [] =>
      ⟨[.prompt namePrompt, .line (greet user_name), .prompt numberPrompt],
        some .inputExhausted⟩
    | numLine :: _ =>
      match pyInt numLine with
      | none =>
        ⟨[.prompt namePrompt, .line (greet user_name), .prompt numberPrompt],
          some .parseError⟩
      | some number =>
        ⟨[.prompt namePrompt, .line (greet user_name), .prompt numberPrompt,
            .line (squareLine number)], none⟩

/-! ## A step-indexed view of the same control flow, for the state
machine `AwaitingName → AwaitingNumber → Done` of the spec. -/

/-- The phase the run is in: which read it is waiting for. -/
inductive Phase
  | awaitingName
  | awaitingNumber
  | done
deriving DecidableEq, Repr

/-- State of the machine: current phase, input not yet consumed,
output produced so far, error so far. -/
structure MState where
  phase : Phase
  stdin : List String
  stdout : List Chunk
  error : Option RunError
deriving DecidableEq, Repr

/-- Initial state of a run on the given standard input. -/
def initState (stdin : List String) : MState :=
  ⟨.awaitingName, stdin, [], none⟩

/-- One step of the machine: perform the read (and the write that the
source code puts before the next read) of the current phase.  `done`
is terminal: the step function fixes it. -/
def step (s : MState) : MState :=
  match s.phase with
  | .awaitingName =>
    match s.stdin with
    | [] => ⟨.done, [], s.stdout ++ [.prompt namePrompt], some .inputExhausted⟩
    | user_name :: rest =>
      ⟨.awaitingNumber, rest,
        s.stdout ++ [.prompt namePrompt, .line (greet user_name)], s.error⟩
  | .awaitingNumber =>
    match s.stdin with
    | [] => ⟨.done, [], s.stdout ++ [.prompt numberPrompt], some .inputExhausted⟩
    | numLine :: rest =>
      match pyInt numLine with
      | none => ⟨.done, rest, s.stdout ++ [.prompt numberPrompt], some .parseError⟩
      | some n =>
        ⟨.done, rest,
          s.stdout ++ [.prompt numberPrompt, .line (squareLine n)], none⟩
  | .done => s

/-! ## Helper lemmas on the decimal formatter and parser. -/

lemma digitChar_facts (m : Nat) (h : m < 10) :
    (Char.ofNat (48 + m)).isDigit = true ∧
    (Char.ofNat (48 + m)).isWhitespace = false ∧
    Char.ofNat (48 + m) ≠ '+' ∧
    Char.ofNat (48 + m) ≠ '-' ∧
    digitVal (Char.ofNat (48 + m)) = m := by
  interval_cases m <;> decide

lemma mem_natDecRevFuel {fuel n : Nat} (hle : n ≤ fuel) {c : Char}
    (hc : c ∈ natDecRevFuel fuel n) : ∃ m, m < 10 ∧ c = Char.ofNat (48 + m) := by
  induction fuel generalizing n with
  | zero =>
    have hn : n = 0 := Nat.le_zero.mp hle
    subst hn
    simp only [natDecRevFuel, List.mem_singleton] at hc
    exact ⟨0, by omega, hc⟩
  | succ fuel ih =>
    by_cases h10 : n < 10
    · simp only [natDecRevFuel, if_pos h10, List.mem_singleton] at hc
      exact ⟨n, h10, hc⟩
    · simp only [natDecRevFuel, if_neg h10, List.mem_cons] at hc
      rcases hc with hc | hc
      · exact ⟨n % 10, Nat.mod_lt _ (by omega), hc⟩
      · exact ih (by omega : n / 10 ≤ fuel) hc

lemma natDecRevFuel_ne_nil (fuel n : Nat) : natDecRevFuel fuel n ≠ [] := by
  cases fuel with
  | zero => simp [natDecRevFuel]
  | succ fuel =>
    by_cases h10 : n < 10 <;> simp [natDecRevFuel, h10]

lemma foldl_natDecRevFuel {fuel n : Nat} (hle : n ≤ fuel) (acc : Nat) :
    List.foldl (fun a c => a * 10 + digitVal c) acc (natDecRevFuel fuel n).reverse =
      acc * 10 ^ (natDecRevFuel fuel n).length + n := by
  induction fuel generalizing n acc with
  | zero =>
    have hn : n = 0 := Nat.le_zero.mp hle
    subst hn
    simp [natDecRevFuel, digitVal]
  | succ fuel ih =>
    by_cases h10 : n < 10
    · have hd := (digitChar_facts n h10).2.2.2.2
      simp [natDecRevFuel, if_pos h10, hd]
    · have hrec : n / 10 ≤ fuel := by omega
      have hd := (digitChar_facts (n % 10) (Nat.mod_lt _ (by omega))).2.2.2.2
      simp only [natDecRevFuel, if_neg h10, List.reverse_cons, List.foldl_append,
        List.foldl_cons, List.foldl_nil, List.length_cons]
      rw [ih hrec acc, hd]
      have hm : n / 10 * 10 + n % 10 = n := by omega
      calc (acc * 10 ^ (natDecRevFuel fuel (n / 10)).length + n / 10) * 10 + n % 10
          = acc * 10 ^ ((natDecRevFuel fuel (n / 10)).length + 1) +
              (n / 10 * 10 + n % 10) := by ring
        _ = acc * 10 ^ ((natDecRevFuel fuel (n / 10)).length + 1) + n := by rw [hm]

lemma digitsToNat_natDec (n : Nat) : digitsToNat (natDec n) = n := by
  have h := foldl_natDecRevFuel (Nat.le_refl n) 0
  simpa [digitsToNat, natDec] using h

lemma natDec_ne_nil (n : Nat) : natDec n ≠ [] := by
  simp [natDec, natDecRevFuel_ne_nil]

lemma mem_natDec {n : Nat} {c : Char} (hc : c ∈ natDec n) :
    ∃ m, m < 10 ∧ c = Char.ofNat (48 + m) := by
  rw [natDec, List.mem_reverse] at hc
  exact mem_natDecRevFuel (Nat.le_refl n) hc

lemma digitRun_all_digits :
    ∀ (cs : List Char), (∀ c ∈ cs, c.isDigit) →
      ∀ (acc : List Char), digitRun cs false acc = some (acc.reverse ++ cs) := by
  intro cs
  induction cs with
  | nil => intro _ acc; simp [digitRun]
  | cons c rest ih =>
    intro h acc
    have hc : c.isDigit := h c (List.mem_cons_self c rest)
    have hrest : ∀ x ∈ rest, x.isDigit := fun x hx => h x (List.mem_cons_of_mem c hx)
    simp [digitRun, hc, ih hrest]

lemma parseDigits_all_digits {c : Char} {rest : List Char}
    (hc : c.isDigit) (hrest : ∀ x ∈ rest, x.isDigit) :
    parseDigits (c :: rest) = some (digitsToNat (c :: rest)) := by
  simp [parseDigits, hc, digitRun_all_digits rest hrest [c]]

lemma dropWhile_all_false {p : Char → Bool} :
    ∀ {cs : List Char}, (∀ c ∈ cs, p c = false) → cs.dropWhile p = cs := by
  intro cs h
  cases cs with
  | nil => rfl
  | cons c rest =>
    have hc : p c = false := h c (List.mem_cons_self c rest)
    simp [List.dropWhile, hc]

lemma stripChars_id {cs : List Char} (h : ∀ c ∈ cs, c.isWhitespace = false) :
    stripChars cs = cs := by
  unfold stripChars
  rw [dropWhile_all_false h]
  rw [dropWhile_all_false (fun c hc => h c (List.mem_reverse.mp hc))]
  exact List.reverse_reverse cs

lemma natDec_all_digits {n : Nat} : ∀ c ∈ natDec n, c.isDigit := by
  intro c hc
  obtain ⟨m, hm, rfl⟩ := mem_natDec hc
  exact (digitChar_facts m hm).1

lemma natDec_no_whitespace {n : Nat} : ∀ c ∈ natDec n, c.isWhitespace = false := by
  intro c hc
  obtain ⟨m, hm, rfl⟩ := mem_natDec hc
  exact (digitChar_facts m hm).2.1

lemma pyIntCore_natDec (n : Nat) : pyIntCore (natDec n) = some (n : Int) := by
  obtain ⟨c, rest, hsplit⟩ : ∃ c rest, natDec n = c :: rest := by
    cases hd : natDec n with
    | nil => exact absurd hd (natDec_ne_nil n)
    | cons c rest => exact ⟨c, rest, rfl⟩
  have hcmem : c ∈ natDec n := by rw [hsplit]; exact List.mem_cons_self c rest
  obtain ⟨m, hm, hc⟩ := mem_natDec hcmem
  have hplus : c ≠ '+' := hc ▸ (digitChar_facts m hm).2.2.1
  have hminus : c ≠ '-' := hc ▸ (digitChar_facts m hm).2.2.2.1
  have hcdig : c.isDigit := hc ▸ (digitChar_facts m hm).1
  have hrest : ∀ x ∈ rest, x.isDigit := by
    intro x hx
    exact natDec_all_digits x (by rw [hsplit]; exact List.mem_cons_of_mem c hx)
  have hparse : parseDigits (c :: rest) = some (digitsToNat (c :: rest)) :=
    parseDigits_all_digits hcdig hrest
  have hval : digitsToNat (c :: rest) = n := by
    rw [← hsplit]; exact digitsToNat_natDec n
  rw [hsplit, pyIntCore, if_neg hplus, if_neg hminus, hparse, hval]
  rfl

lemma pyInt_intToDecimal (n : Int) : pyInt (intToDecimal n) = some n := by
  cases n with
  | ofNat m =>
    have hdata : (intToDecimal (Int.ofNat m)).data = natDec m := rfl
    rw [pyInt, hdata, stripChars_id natDec_no_whitespace, pyIntCore_natDec]
    rfl
  | negSucc m =>
    have hdata : (intToDecimal (Int.negSucc m)).data = '-' :: natDec (m + 1) := rfl
    have hws : ∀ c ∈ '-' :: natDec (m + 1), c.isWhitespace = false := by
      intro c hc
      rcases List.mem_cons.mp hc with rfl | hc
      · decide
      · exact natDec_no_whitespace c hc
    rw [pyInt, hdata, stripChars_id hws]
    obtain ⟨c, rest, hsplit⟩ : ∃ c rest, natDec (m + 1) = c :: rest := by
      cases hd : natDec (m + 1) with
      | nil => exact absurd hd (natDec_ne_nil (m + 1))
      | cons c rest => exact ⟨c, rest, rfl⟩
    have hcdig : c.isDigit := natDec_all_digits c (by rw [hsplit]; exact List.mem_cons_self c rest)
    have hrest : ∀ x ∈ rest, x.isDigit := by
      intro x hx
      exact natDec_all_digits x (by rw [hsplit]; exact List.mem_cons_of_mem c hx)
    have hval : digitsToNat (c :: rest) = m + 1 := by
      rw [← hsplit]; exact digitsToNat_natDec (m + 1)
    rw [pyIntCore, if_neg (by decide : ¬('-' : Char) = '+'), if_pos rfl, hsplit,
      parseDigits_all_digits hcdig hrest, hval]
    simp [Int.negSucc_eq]

/-! ## The claims. -/

/-- C1: for every string `s`, `greet s` returns exactly
`"Hello, " ++ s ++ "! Welcome to the improved code."` — comma, space,
exclamation mark and trailing period included — with `s` interpolated
verbatim. -/
theorem greet_returns_exact_sentence (s : String) :
    greet s = "Hello, " ++ s ++ "! Welcome to the improved code." := rfl

/-- C2: the result computed by `number ** 2` equals `n * n` for every
integer `n`. -/
theorem square_is_mul_self (n : Int) : square n = n * n := pow_two n

/-- C3: when the second input line does not parse as a base-10 integer
the run raises `ParseError`, nothing is caught or retried, the run
terminates, and the only printed line is the greeting. -/
theorem parse_failure_terminates_without_square_line
    (name numLine : String) (rest : List String) (h : pyInt numLine = none) :
    main (name :: numLine :: rest) =
      ⟨[.prompt namePrompt, .line (greet name), .prompt numberPrompt],
        some .parseError⟩ ∧
    printedLines (main (name :: numLine :: rest)) = [greet name] := by
  constructor
  · simp [main, h]
  · simp [main, h, printedLines]

/-- Witness for C3 at the concrete non-numeric input `"abc"`. -/
theorem parse_failure_terminates_witness :
    pyInt "abc" = none ∧
    main ["x", "abc"] =
      ⟨[.prompt namePrompt, .line (greet "x"), .prompt numberPrompt],
        some .parseError⟩ :=
  ⟨by decide,
    (parse_failure_terminates_without_square_line "x" "abc" [] (by decide)).1⟩

/-- C4 as stated is false: on the input lines `"Ada"` and `"4"` the
text written to standard output is not only the two newline-terminated
lines, because the two `input()` prompts are written to standard output
as well (without trailing newlines). -/
theorem stdout_has_prompts_on_Ada_four :
    stdoutText (main ["Ada", "4"]) =
      "Please enter your name: Hello, Ada! Welcome to the improved code.\nEnter a number to square: The square of 4 is 16\n" ∧
    stdoutText (main ["Ada", "4"]) ≠
      "Hello, Ada! Welcome to the improved code.\nThe square of 4 is 16\n" := by
  constructor
  · decide
  · decide

/-- C4 (amended): on every successful run the newline-terminated lines
printed to standard output are exactly the greeting and then the square
line, in that order; the only other text written to standard output is
the two `input()` prompts, each written without a trailing newline
before the corresponding read. -/
theorem success_prints_two_lines_and_prompts
    (name numLine : String) (n : Int) (rest : List String)
    (h : pyInt numLine = some n) :
    main (name :: numLine :: rest) =
      ⟨[.prompt namePrompt, .line (greet name), .prompt numberPrompt,
          .line (squareLine n)], none⟩ ∧
    printedLines (main (name :: numLine :: rest)) = [greet name, squareLine n] := by
  constructor
  · simp [main, h]
  · simp [main, h, printedLines]

/-- Witness for C4 (amended) on the input lines `"Ada"` and `"4"`. -/
theorem success_prints_two_lines_witness :
    printedLines (main ["Ada", "4"]) =
      ["Hello, Ada! Welcome to the improved code.", "The square of 4 is 16"] := by
  have h := (success_prints_two_lines_and_prompts "Ada" "4" 4 [] (by decide)).2
  rw [h]
  decide

/-- C5: if the input stream is exhausted at either read, the run
terminates with `InputExhausted`; when it ends before the first line no
output line at all is printed. -/
theorem input_exhausted_behaviour :
    main [] = ⟨[.prompt namePrompt], some .inputExhausted⟩ ∧
    printedLines (main []) = [] ∧
    ∀ name : String,
      main [name] =
        ⟨[.prompt namePrompt, .line (greet name), .prompt numberPrompt],
          some .inputExhausted⟩ :=
  ⟨rfl, rfl, fun _ => rfl⟩

/-- C6: `greet` is total and pure — in this embedding it is a total
function on strings with no effect on the run state — it accepts the
empty string, and it interpolates its argument verbatim between the
fixed prefix and suffix. -/
theorem greet_total_and_verbatim :
    greet "" = "Hello, ! Welcome to the improved code." ∧
    ∀ s : String, (greet s).data =
      "Hello, ".data ++ s.data ++ "! Welcome to the improved code.".data := by
  refine ⟨rfl, fun s => ?_⟩
  simp [greet]

/-- C7: every run follows the strictly sequential machine
`AwaitingName → AwaitingNumber → Done`: it starts awaiting the name;
after one step it awaits the number or is done; after two steps it is
done and the step function fixes it (no loops or retries); it consumes
at most the first two input lines, in order; the direct semantics of
`main` agrees with the machine; and whenever the first read succeeds
the greeting is already printed before the second read is attempted. -/
theorem run_follows_state_machine (stdin : List String) :
    (initState stdin).phase = .awaitingName ∧
    ((step (initState stdin)).phase = .awaitingNumber ∨
      (step (initState stdin)).phase = .done) ∧
    (step (step (initState stdin))).phase = .done ∧
    step (step (step (initState stdin))) = step (step (initState stdin)) ∧
    (step (step (initState stdin))).stdin = stdin.drop 2 ∧
    main stdin = ⟨(step (step (initState stdin))).stdout,
      (step (step (initState stdin))).error⟩ ∧
    (∀ name rest, stdin = name :: rest →
      step (initState stdin) =
        ⟨.awaitingNumber, rest, [.prompt namePrompt, .line (greet name)], none⟩) := by
  cases stdin with
  | nil =>
    refine ⟨rfl, Or.inr rfl, rfl, rfl, rfl, rfl, ?_⟩
    intro name rest h
    exact absurd h (by simp)
  | cons a t =>
    cases t with
    | nil =>
      refine ⟨rfl, Or.inl rfl, rfl, rfl, rfl, rfl, ?_⟩
      intro name rest h
      injection h with h1 h2
      subst h1
      subst h2
      rfl
    | cons b r =>
      cases hp : pyInt b with
      | none =>
        refine ⟨rfl, Or.inl rfl, ?_, ?_, ?_, ?_, ?_⟩
        · simp [initState, step, hp]
        · simp [initState, step, hp]
        · simp [initState, step, hp]
        · simp [initState, step, main, hp]
        · intro name rest h
          injection h with h1 h2
          subst h1
          subst h2
          rfl
      | some n =>
        refine ⟨rfl, Or.inl rfl, ?_, ?_, ?_, ?_, ?_⟩
        · simp [initState, step, hp]
        · simp [initState, step, hp]
        · simp [initState, step, hp]
        · simp [initState, step, main, hp]
        · intro name rest h
          injection h with h1 h2
          subst h1
          subst h2
          rfl

/-- Witness for C7: on the input lines `"Ada"`, `"4"`, one step from
the initial state has printed the greeting and awaits the number. -/
theorem run_follows_state_machine_witness :
    step (initState ["Ada", "4"]) =
      ⟨.awaitingNumber, ["4"], [.prompt namePrompt, .line (greet "Ada")], none⟩ :=
  (run_follows_state_machine ["Ada", "4"]).2.2.2.2.2.2 "Ada" ["4"] rfl

/-- C8: the integer parse is more lenient than plain base-10 digit
strings: a numeral surrounded by whitespace, one with a leading `+`,
and one with underscores between digits all parse successfully and the
run raises no `ParseError`, although none of the three is a plain
digit string. -/
theorem int_parse_lenient_examples :
    pyInt " 42 " = some 42 ∧ pyInt "+7" = some 7 ∧ pyInt "1_000" = some 1000 ∧
    (" 42 ".data.all Char.isDigit = false ∧ "+7".data.all Char.isDigit = false ∧
      "1_000".data.all Char.isDigit = false) ∧
    (main ["x", " 42 "]).error = none ∧ (main ["x", "+7"]).error = none ∧
    (main ["x", "1_000"]).error = none := by
  decide

/-- C9: integer arithmetic is arbitrary precision: for every integer
`n`, however large, its canonical decimal string parses back to `n`,
the run on it succeeds with no overflow or error, and the printed
result is exactly `n * n`. -/
theorem arbitrary_precision_roundtrip (n : Int) :
    pyInt (intToDecimal n) = some n ∧
    main ["user", intToDecimal n] =
      ⟨[.prompt namePrompt, .line (greet "user"), .prompt numberPrompt,
          .line (squareLine n)], none⟩ ∧
    squareLine n =
      "The square of " ++ intToDecimal n ++ " is " ++ intToDecimal (n * n) := by
  refine ⟨pyInt_intToDecimal n, ?_, ?_⟩
  · simp [main, pyInt_intToDecimal n]
  · simp [squareLine, square, pow_two]

/-- C10: the square line renders the parsed integer canonically, not
the raw input text: in general the printed line is built from the
canonical decimal form of the parsed value, and concretely `"007"`
prints `"The square of 7 is 49"` while `"+5"` prints
`"The square of 5 is 25"`. -/
theorem square_line_canonical_decimal :
    (∀ (name numLine : String) (n : Int) (rest : List String),
      pyInt numLine = some n →
      printedLines (main (name :: numLine :: rest)) =
        [greet name,
          "The square of " ++ intToDecimal n ++ " is " ++ intToDecimal (square n)]) ∧
    printedLines (main ["x", "007"]) = [greet "x", "The square of 7 is 49"] ∧
    printedLines (main ["x", "+5"]) = [greet "x", "The square of 5 is 25"] := by
  refine ⟨?_, by decide, by decide⟩
  intro name numLine n rest h
  simp [main, h, printedLines, squareLine]

/-- Witness for C10 at the concrete input `"007"`. -/
theorem square_line_canonical_decimal_witness :
    printedLines (main ["y", "007"]) =
      [greet "y",
        "The square of " ++ intToDecimal 7 ++ " is " ++ intToDecimal (square 7)] :=
  square_line_canonical_decimal.1 "y" "007" 7 [] (by decide)

end MainPy
